import Mathlib

/-!
Verification of the core of the Smart Attendance System (`src/app.py`):
token codec, token validator, session store and attendance ledger.

Python strings are modelled as `List Char`; the wall clock (`now_int()`,
i.e. `int(time.time())`) is passed explicitly as an `Int` parameter; the
SQLite tables are modelled as lists of rows, with each SQL statement of
the source translated to the corresponding list operation.
-/

namespace SmartAttendance

/-- Python strings, modelled character by character. -/
abbrev Str := List Char

/-- Constant `QR_REFRESH = 1` (src/app.py line 10): the rotation period in seconds. -/
def QR_REFRESH : Int := 1

/-- Constant `TOKEN_WINDOW = 30` (src/app.py line 11): the validity window in seconds. -/
def TOKEN_WINDOW : Int := 30

/-! ### Decimal rendering and parsing of integers
Models Python's `f"{interval}"` rendering and `int(parts[1])` parsing,
on the decimal/sign subset those calls exercise here. -/

/-- The decimal digit character for a digit value (values `≥ 10` never occur:
the digits of a base-10 expansion are `< 10`). -/
def charOfDigit (d : Nat) : Char :=
  match d with
  | 0 => '0' | 1 => '1' | 2 => '2' | 3 => '3' | 4 => '4'
  | 5 => '5' | 6 => '6' | 7 => '7' | 8 => '8' | _ => '9'

/-- The digit value of a decimal digit character, `none` on a non-digit. -/
def digitOfChar (c : Char) : Option Nat :=
  if 48 ≤ c.toNat ∧ c.toNat ≤ 57 then some (c.toNat - 48) else none

/-- Digit-by-digit rendering, least significant digit extracted first and
consed onto the accumulator; the fuel argument only forces structural
termination and never runs out when `n ≤ fuel`. -/
def natToStrAux (fuel n : Nat) (acc : Str) : Str :=
  match fuel, n with
  | _, 0 => acc
  | 0, _ => acc
  | fuel + 1, n => natToStrAux fuel (n / 10) (charOfDigit (n % 10) :: acc)

/-- Decimal rendering of a natural number: most significant digit first. -/
def natToStr (n : Nat) : Str :=
  if n = 0 then ['0'] else natToStrAux n n []

/-- Python's `str` of an integer: optional leading minus sign, then digits. -/
def intToStr (i : Int) : Str :=
  if i < 0 then '-' :: natToStr i.natAbs else natToStr i.natAbs

/-- Accumulator pass over a most-significant-first digit string. -/
def parseNatAux (acc : Nat) : Str → Option Nat
  | [] => some acc
  | c :: cs =>
    match digitOfChar c with
    | some d => parseNatAux (acc * 10 + d) cs
    | none => none

/-- Parse a non-empty all-digit string as a natural number. -/
def parseNat (s : Str) : Option Nat :=
  if s = [] then none else parseNatAux 0 s

/-- Model of Python's `int(...)` on the strings arising here: an optional
leading `-`, then a non-empty run of decimal digits; `none` when `int`
would raise `ValueError`. -/
def parseInt (s : Str) : Option Int :=
  match s with
  | [] => none
  | c :: cs =>
    if c = '-' then (parseNat cs).map (fun k => -(k : Int))
    else (parseNat s).map (fun k => (k : Int))

/-! ### Token codec -/

/-- Python's `token.split("|")`: split on every occurrence of the
delimiter, keeping empty parts, always returning at least one part. -/
def splitOn (c : Char) : Str → List Str
  | [] => [[]]
  | x :: xs =>
    if x = c then [] :: splitOn c xs
    else
      match splitOn c xs with
      | h :: t => (x :: h) :: t
      | [] => [[x]]

/-- Function `make_token` (src/app.py lines 65-66): `f"{session_name}|{interval}"`. -/
def make_token (session_name : Str) (interval : Int) : Str :=
  session_name ++ '|' :: intToStr interval

/-- Function `current_interval` (src/app.py lines 62-63): `now_int() // QR_REFRESH`
(Python `//` is floor division). The clock is the explicit `now` argument. -/
def current_interval (now : Int) : Int :=
  Int.fdiv now QR_REFRESH

/-- The decode half of the codec, as performed by `token_valid`
(src/app.py lines 69-76): split on the delimiter, require exactly two
parts, parse the second as an integer. -/
def decode (token : Str) : Option (Str × Int) :=
  match splitOn '|' token with
  | [session_name, intervalStr] => (parseInt intervalStr).map (fun i => (session_name, i))
  | _ => none

/-! ### Session store -/

/-- A row of the `sessions` table (src/app.py lines 21-28); the
autoincrement `id` is abstracted away, row identity is positional. -/
structure SessionRow where
  name : Str
  started : Int
  ended : Int
deriving DecidableEq

/-- The query `SELECT ... FROM sessions WHERE name=?` with `fetchone()`. -/
def sessions_lookup (name : Str) (db : List SessionRow) : Option SessionRow :=
  db.find? (fun r => decide (r.name = name))

/-- Function `session_active` (src/app.py lines 110-114):
`bool(row and row[0] and row[1] == 0)` — row exists, `started` truthy,
`ended` equal to zero. -/
def session_active (name : Str) (db : List SessionRow) : Bool :=
  match sessions_lookup name db with
  | some row => decide (row.started ≠ 0) && decide (row.ended = 0)
  | none => false

/-- Function `start_session` (src/app.py lines 116-123): `INSERT OR REPLACE` keyed
on the existing row's `id`: if a row with this name exists it is replaced
in place by `(name, now, 0)`, otherwise a fresh row is inserted. -/
def start_session (name : Str) (now : Int) (db : List SessionRow) : List SessionRow :=
  if db.any (fun r => decide (r.name = name)) then
    db.map (fun r => if r.name = name then ⟨name, now, 0⟩ else r)
  else
    db ++ [⟨name, now, 0⟩]

/-- Function `end_session` (src/app.py lines 125-128):
`UPDATE sessions SET ended=? WHERE name=?`. -/
def end_session (name : Str) (now : Int) (db : List SessionRow) : List SessionRow :=
  db.map (fun r => if r.name = name then ⟨r.name, r.started, now⟩ else r)

/-! ### Token validator -/

/-- Python's built-in `abs` on integers. -/
def pyabs (i : Int) : Int :=
  if i < 0 then -i else i

/-- Function `token_valid` (src/app.py lines 68-93). Returns the Python triple
`(ok, token_ts, error_message)`. The branch for an unparsable integer is
the `except` path: `int(parts[1])` raises `ValueError` and the handler
returns `(False, None, str(e))`; its message is Python's exception text,
modelled here by its fixed prefix. -/
def token_valid (token : Str) (now : Int) (db : List SessionRow) :
    Bool × Option Int × Option String :=
  match splitOn '|' token with
  | [session_name, intervalStr] =>
    match parseInt intervalStr with
    | none => (false, none, some "invalid literal for int() with base 10")
    | some interval =>
      let token_ts := interval * QR_REFRESH
      if TOKEN_WINDOW < pyabs (now - token_ts) then
        (false, none, some "QR expired, please scan a fresh one.")
      else
        match sessions_lookup session_name db with
        | none => (false, none, some "Session not found.")
        | some row =>
          if row.ended ≠ 0 then (false, none, some "Session has ended.")
          else (true, some token_ts, none)
  | _ => (false, none, some "Invalid token format.")

/-- The teacher-dashboard composition issuing the QR token
(src/app.py lines 286-287): `make_token(running_session_name,
current_interval())`. There is no rotation-period parameter: the interval
always comes from the module constant `QR_REFRESH`. -/
def current_token (name : Str) (now : Int) : Str :=
  make_token name (current_interval now)

/-- The spec's interface `current_token(name, rotation_period_seconds)`
stated from the spec's words, for comparison with the source-derived
`current_token`: the interval is `floor(now / rotation_period_seconds)`
with a caller-supplied period. -/
def current_token_spec (name : Str) (p : Int) (now : Int) : Str :=
  name ++ '|' :: intToStr (Int.fdiv now p)

/-! ### Attendance ledger -/

/-- A row of the `attendance` table (src/app.py lines 29-38). The schema
declares no uniqueness constraint on `(session_name, reg_no)`; the
autoincrement `id` is abstracted away. -/
structure AttRow where
  session_name : Str
  reg_no : Str
  token : Str
  token_ts : Int
  submit_ts : Int
deriving DecidableEq

/-- The query `SELECT id FROM attendance WHERE session_name=? AND reg_no=?` with
`fetchone()` (src/app.py line 132). -/
def att_lookup (sn pid : Str) (att : List AttRow) : Option AttRow :=
  att.find? (fun r => decide (r.session_name = sn) && decide (r.reg_no = pid))

/-- The storage-layer `INSERT INTO attendance ...` (src/app.py lines
135-138) under the schema of `init_db`: the table has no uniqueness
constraint, so the insert unconditionally appends a row. -/
def insert_attendance (att : List AttRow) (r : AttRow) : List AttRow :=
  att ++ [r]

/-- Function `record_attendance` (src/app.py lines 130-140): check-then-insert.
Consults only the attendance table — the sessions table is not an input. -/
def record_attendance (sn pid tok : Str) (token_ts now : Int) (att : List AttRow) :
    (Bool × String) × List AttRow :=
  match att_lookup sn pid att with
  | some _ => ((false, "This registration number has already submitted."), att)
  | none => ((true, "Attendance marked."), insert_attendance att ⟨sn, pid, tok, token_ts, now⟩)

/-- Function `fetch_attendance` (src/app.py lines 142-154): rows of one session,
ordered by `submit_ts`, projected to `(reg_no, submit_ts)`. The SQL
`datetime(submit_ts, 'unixepoch', ...)` human formatting of the second
column is presentation and is abstracted to the underlying `submit_ts`. -/
def fetch_attendance (sn : Str) (att : List AttRow) : List (Str × Int) :=
  (((att.filter (fun r => decide (r.session_name = sn))).insertionSort
      (fun a b => a.submit_ts ≤ b.submit_ts)).map
    (fun r => (r.reg_no, r.submit_ts)))

/-- Number of attendance rows for one `(session_name, reg_no)` pair. -/
def pair_count (sn pid : Str) (att : List AttRow) : Nat :=
  att.countP (fun r => decide (r.session_name = sn) && decide (r.reg_no = pid))

/-- Attendance-table states reachable from the empty table through
`record_attendance` calls (the only writer of the table in the source). -/
inductive AttReach : List AttRow → Prop where
  | init : AttReach []
  | step (sn pid tok : Str) (token_ts now : Int) {att : List AttRow} :
      AttReach att → AttReach (record_attendance sn pid tok token_ts now att).2

/-! ### Lemmas about the token codec -/

theorem splitOn_ne_nil (c : Char) (s : Str) : splitOn c s ≠ [] := by
  cases s with
  | nil => simp [splitOn]
  | cons x xs =>
    simp only [splitOn]
    split
    · simp
    · split <;> simp

theorem splitOn_length (c : Char) (s : Str) : (splitOn c s).length = s.count c + 1 := by
  induction s with
  | nil => simp [splitOn]
  | cons x xs ih =>
    simp only [splitOn]
    by_cases hx : x = c
    · subst hx
      simp [List.count_cons, ih]
    · rw [if_neg hx]
      cases h : splitOn c xs with
      | nil => exact absurd h (splitOn_ne_nil c xs)
      | cons a t =>
        rw [h] at ih
        simp only [List.length_cons] at ih ⊢
        simp [List.count_cons, hx, ih]

theorem splitOn_of_not_mem {c : Char} {s : Str} (h : c ∉ s) : splitOn c s = [s] := by
  induction s with
  | nil => simp [splitOn]
  | cons x xs ih =>
    simp only [List.mem_cons, not_or] at h
    obtain ⟨h1, h2⟩ := h
    have hxc : ¬ x = c := fun hx => h1 hx.symm
    simp [splitOn, ih h2, if_neg hxc]

theorem splitOn_append {c : Char} {a : Str} (b : Str) (h : c ∉ a) :
    splitOn c (a ++ c :: b) = a :: splitOn c b := by
  induction a with
  | nil => simp [splitOn]
  | cons x xs ih =>
    simp only [List.mem_cons, not_or] at h
    obtain ⟨h1, h2⟩ := h
    have hxc : ¬ x = c := fun hx => h1 hx.symm
    simp [List.cons_append, splitOn, ih h2, if_neg hxc]

theorem digitOfChar_charOfDigit {d : Nat} (h : d < 10) :
    digitOfChar (charOfDigit d) = some d := by
  interval_cases d <;> decide

theorem natToStrAux_eq {fuel : Nat} : ∀ {n : Nat}, n ≤ fuel → ∀ acc : Str,
    natToStrAux fuel n acc = ((Nat.digits 10 n).reverse).map charOfDigit ++ acc := by
  induction fuel with
  | zero =>
    intro n hn acc
    have hn0 : n = 0 := Nat.le_zero.mp hn
    subst hn0
    simp [natToStrAux]
  | succ fuel ih =>
    intro n hn acc
    cases n with
    | zero => simp [natToStrAux]
    | succ m =>
      have hdiv : (m + 1) / 10 ≤ fuel := by
        have : (m + 1) / 10 < m + 1 := Nat.div_lt_self (Nat.succ_pos m) (by norm_num)
        omega
      simp only [natToStrAux]
      rw [ih hdiv]
      rw [Nat.digits_def' (by norm_num : (1 : Nat) < 10) (Nat.succ_pos m)]
      simp

theorem natToStr_eq {n : Nat} (h : n ≠ 0) :
    natToStr n = ((Nat.digits 10 n).reverse).map charOfDigit := by
  unfold natToStr
  rw [if_neg h, natToStrAux_eq (le_refl n), List.append_nil]

theorem natToStr_ne_nil (n : Nat) : natToStr n ≠ [] := by
  by_cases hn : n = 0
  · subst hn; simp [natToStr]
  · rw [natToStr_eq hn]
    intro hcontra
    apply Nat.digits_ne_nil_iff_ne_zero.mpr hn
    simpa using hcontra

theorem mem_natToStr {n : Nat} {c : Char} (h : c ∈ natToStr n) :
    ∃ d, d < 10 ∧ c = charOfDigit d := by
  by_cases hn : n = 0
  · subst hn
    simp [natToStr] at h
    exact ⟨0, by norm_num, h⟩
  · rw [natToStr_eq hn] at h
    simp only [List.mem_map, List.mem_reverse] at h
    obtain ⟨d, hd, rfl⟩ := h
    exact ⟨d, Nat.digits_lt_base (by norm_num) hd, rfl⟩

theorem natToStr_chars {n : Nat} {c : Char} (h : c ∈ natToStr n) : c ≠ '-' ∧ c ≠ '|' := by
  obtain ⟨d, hd, rfl⟩ := mem_natToStr h
  interval_cases d <;> exact ⟨by decide, by decide⟩

theorem pipe_not_mem_intToStr (i : Int) : '|' ∉ intToStr i := by
  intro h
  by_cases hi : i < 0
  · rw [intToStr, if_pos hi] at h
    rcases List.mem_cons.mp h with h1 | h2
    · exact absurd h1 (by decide)
    · exact (natToStr_chars h2).2 rfl
  · rw [intToStr, if_neg hi] at h
    exact (natToStr_chars h).2 rfl

theorem parseNatAux_append (acc : Nat) (s t : Str) :
    parseNatAux acc (s ++ t) =
      match parseNatAux acc s with
      | some a => parseNatAux a t
      | none => none := by
  induction s generalizing acc with
  | nil => simp [parseNatAux]
  | cons c cs ih =>
    simp only [List.cons_append, parseNatAux]
    cases h : digitOfChar c with
    | none => simp
    | some d => simp [ih]

theorem parseNatAux_ofDigits (L : List Nat) (hL : ∀ d ∈ L, d < 10) : ∀ acc : Nat,
    parseNatAux acc ((L.reverse).map charOfDigit)
      = some (acc * 10 ^ L.length + Nat.ofDigits 10 L) := by
  induction L with
  | nil => intro acc; simp [parseNatAux, Nat.ofDigits]
  | cons d T ih =>
    intro acc
    have hd : d < 10 := hL d (List.mem_cons_self d T)
    have hT : ∀ x ∈ T, x < 10 := fun x hx => hL x (List.mem_cons_of_mem _ hx)
    rw [List.reverse_cons, List.map_append, parseNatAux_append, ih hT acc]
    simp only [List.map_cons, List.map_nil, parseNatAux, digitOfChar_charOfDigit hd,
      Nat.ofDigits_cons, List.length_cons, Option.some.injEq]
    ring

theorem parseNat_natToStr (n : Nat) : parseNat (natToStr n) = some n := by
  by_cases hn : n = 0
  · subst hn; rfl
  · have hdig : (Nat.digits 10 n) ≠ [] := Nat.digits_ne_nil_iff_ne_zero.mpr hn
    rw [parseNat, if_neg (natToStr_ne_nil n), natToStr_eq hn,
      parseNatAux_ofDigits _ (fun d hd => Nat.digits_lt_base (by norm_num) hd) 0]
    simp [Nat.ofDigits_digits]

theorem parseInt_intToStr (i : Int) : parseInt (intToStr i) = some i := by
  by_cases hi : i < 0
  · rw [intToStr, if_pos hi]
    simp only [parseInt, if_pos rfl]
    rw [parseNat_natToStr]
    simp [Int.ofNat_natAbs_of_nonpos (le_of_lt hi)]
  · rw [intToStr, if_neg hi]
    cases hs : natToStr i.natAbs with
    | nil => exact absurd hs (natToStr_ne_nil _)
    | cons c cs =>
      have hmem : c ∈ natToStr i.natAbs := by rw [hs]; exact List.mem_cons_self c cs
      have hc : ¬ c = '-' := (natToStr_chars hmem).1
      simp only [parseInt, if_neg hc]
      rw [← hs, parseNat_natToStr]
      simp [Int.natAbs_of_nonneg (not_lt.mp hi)]

theorem splitOn_make_token {name : Str} (h : '|' ∉ name) (i : Int) :
    splitOn '|' (make_token name i) = [name, intToStr i] := by
  unfold make_token
  rw [splitOn_append _ h, splitOn_of_not_mem (pipe_not_mem_intToStr i)]

theorem decode_make_token {name : Str} (h : '|' ∉ name) (i : Int) :
    decode (make_token name i) = some (name, i) := by
  unfold decode
  rw [splitOn_make_token h i]
  show (parseInt (intToStr i)).map (fun x => (name, x)) = some (name, i)
  rw [parseInt_intToStr]
  rfl

/-! ### Lemmas about the token validator -/

/-- Evaluating `token_valid` on a well-formed encoded token, past the decode steps. -/
theorem token_valid_make_token {name : Str} (h : '|' ∉ name) (i now : Int)
    (db : List SessionRow) :
    token_valid (make_token name i) now db =
      if TOKEN_WINDOW < pyabs (now - i * QR_REFRESH) then
        (false, none, some "QR expired, please scan a fresh one.")
      else
        match sessions_lookup name db with
        | none => (false, none, some "Session not found.")
        | some row =>
          if row.ended ≠ 0 then (false, none, some "Session has ended.")
          else (true, some (i * QR_REFRESH), none) := by
  simp only [token_valid, splitOn_make_token h i, parseInt_intToStr]

/-! ### Lemmas about the session store -/

theorem find?_start_replace (name : Str) (now : Int) :
    ∀ db : List SessionRow, db.any (fun r => decide (r.name = name)) = true →
      (db.map (fun r => if r.name = name then SessionRow.mk name now 0 else r)).find?
        (fun r => decide (r.name = name)) = some ⟨name, now, 0⟩ := by
  intro db
  induction db with
  | nil => intro h; simp at h
  | cons r rs ih =>
    intro h
    simp only [List.map_cons]
    by_cases hr : r.name = name
    · rw [if_pos hr]
      simp [List.find?]
    · rw [if_neg hr]
      rw [List.find?_cons_of_neg _ (by simp [hr])]
      apply ih
      simpa [hr] using h

theorem map_start_of_not_any (name : Str) (now : Int) {db : List SessionRow}
    (h : db.any (fun r => decide (r.name = name)) = false) :
    db.map (fun r => if r.name = name then SessionRow.mk name now 0 else r) = db := by
  induction db with
  | nil => rfl
  | cons r rs ih =>
    simp only [List.any_cons, Bool.or_eq_false_iff] at h
    simp only [List.map_cons]
    rw [if_neg (by simpa using h.1), ih h.2]

theorem sessions_lookup_start_self (name : Str) (now : Int) (db : List SessionRow) :
    sessions_lookup name (start_session name now db) = some ⟨name, now, 0⟩ := by
  unfold start_session sessions_lookup
  by_cases hex : db.any (fun r => decide (r.name = name)) = true
  · rw [if_pos hex]
    exact find?_start_replace name now db hex
  · have hex' : db.any (fun r => decide (r.name = name)) = false := by simpa using hex
    rw [if_neg hex]
    have hnone : db.find? (fun r => decide (r.name = name)) = none := by
      apply List.find?_eq_none.mpr
      intro x hx
      simpa using List.any_eq_false.mp hex' x hx
    rw [List.find?_append, hnone]
    simp [List.find?]

theorem session_active_start (name : Str) (now : Int) (db : List SessionRow)
    (h : now ≠ 0) :
    session_active name (start_session name now db) = true := by
  unfold session_active
  rw [sessions_lookup_start_self]
  simp [h]

theorem start_start (name : Str) (now1 now2 : Int) (db : List SessionRow) :
    start_session name now2 (start_session name now1 db) = start_session name now2 db := by
  unfold start_session
  by_cases hex : db.any (fun r => decide (r.name = name)) = true
  · have hany :
        (db.map (fun r => if r.name = name then SessionRow.mk name now1 0 else r)).any
          (fun r => decide (r.name = name)) = true := by
      rcases List.any_eq_true.mp hex with ⟨r, hr, hp⟩
      apply List.any_eq_true.mpr
      refine ⟨⟨name, now1, 0⟩, List.mem_map.mpr ⟨r, hr, ?_⟩, by simp⟩
      rw [if_pos (by simpa using hp)]
    rw [if_pos hex, if_pos hany, if_pos hex, List.map_map]
    congr 1
    funext r
    by_cases hr : r.name = name <;> simp [Function.comp, hr]
  · have hex' : db.any (fun r => decide (r.name = name)) = false := by simpa using hex
    have hany : (db ++ [SessionRow.mk name now1 0]).any
        (fun r => decide (r.name = name)) = true := by simp
    rw [if_neg hex, if_pos hany, if_neg hex, List.map_append,
      map_start_of_not_any name now2 hex']
    simp

/-! ### Lemmas about the attendance ledger -/

theorem att_lookup_eq_none_iff (sn pid : Str) (att : List AttRow) :
    att_lookup sn pid att = none ↔ pair_count sn pid att = 0 := by
  unfold att_lookup pair_count
  rw [List.find?_eq_none, List.countP_eq_zero]

theorem record_attendance_fresh {sn pid : Str} {att : List AttRow}
    (h : att_lookup sn pid att = none) (tok : Str) (ts now : Int) :
    record_attendance sn pid tok ts now att
      = ((true, "Attendance marked."), att ++ [⟨sn, pid, tok, ts, now⟩]) := by
  unfold record_attendance
  rw [h]
  rfl

theorem record_attendance_dup {sn pid : Str} {att : List AttRow}
    (h : att_lookup sn pid att ≠ none) (tok : Str) (ts now : Int) :
    record_attendance sn pid tok ts now att
      = ((false, "This registration number has already submitted."), att) := by
  unfold record_attendance
  cases hl : att_lookup sn pid att with
  | none => exact absurd hl h
  | some r => rfl

theorem attReach_pair_count_le_one {att : List AttRow} (h : AttReach att)
    (sn pid : Str) : pair_count sn pid att ≤ 1 := by
  induction h with
  | init => simp [pair_count]
  | step sn' pid' tok' ts' now' hreach ih =>
    rename_i att'
    cases hl : att_lookup sn' pid' att' with
    | some r =>
      rw [record_attendance_dup (by simp [hl]) tok' ts' now']
      exact ih
    | none =>
      rw [record_attendance_fresh hl tok' ts' now']
      unfold pair_count at ih ⊢
      rw [List.countP_append]
      by_cases hmatch : sn' = sn ∧ pid' = pid
      · obtain ⟨rfl, rfl⟩ := hmatch
        have hz := (att_lookup_eq_none_iff sn' pid' att').mp hl
        unfold pair_count at hz
        rw [hz]
        simp [List.countP_cons]
      · have : (List.countP
            (fun r => decide (r.session_name = sn) && decide (r.reg_no = pid))
            [AttRow.mk sn' pid' tok' ts' now']) = 0 := by
          simp only [List.countP_cons, List.countP_nil]
          rcases not_and_or.mp hmatch with hns | hnp
          · simp [hns]
          · simp [hnp]
        rw [this]
        simpa using ih

theorem countP_fetch (sn pid : Str) (att : List AttRow) :
    (fetch_attendance sn att).countP (fun e => decide (e.1 = pid))
      = pair_count sn pid att := by
  unfold fetch_attendance pair_count
  rw [List.countP_map]
  rw [(List.perm_insertionSort (fun a b => a.submit_ts ≤ b.submit_ts)
    (att.filter (fun r => decide (r.session_name = sn)))).countP_eq]
  rw [List.countP_filter]
  congr 1
  funext r
  exact Bool.and_comm _ _

/-- Any token that does not split into exactly two parts is rejected as
malformed, before any other check. -/
theorem token_valid_format_err {token : Str} (h : (splitOn '|' token).length ≠ 2)
    (now : Int) (db : List SessionRow) :
    token_valid token now db = (false, none, some "Invalid token format.") := by
  cases hsp : splitOn '|' token with
  | nil => unfold token_valid; rw [hsp]
  | cons a t =>
    cases t with
    | nil => unfold token_valid; rw [hsp]
    | cons b t2 =>
      cases t2 with
      | nil => rw [hsp] at h; simp at h
      | cons c t3 => unfold token_valid; rw [hsp]

/-! ### The claims -/

/-- C1 counterexample: the storage layer does not enforce a uniqueness
constraint on `(session_name, reg_no)` — the schema of `init_db` declares
none, so the raw `INSERT` accepts a second row for the same pair and the
table ends up with two records instead of the insert failing safely. -/
theorem C1_counterexample :
    pair_count ['S'] ['A']
      (insert_attendance (insert_attendance [] ⟨['S'], ['A'], ['t'], 0, 0⟩)
        ⟨['S'], ['A'], ['t'], 0, 0⟩) = 2 := by
  decide

/-- C1 (amended): uniqueness of `(session_name, participant_id)` is
enforced only at the application layer by `record_attendance`'s
check-then-insert: under sequential execution every attendance-table
state reachable through `record_attendance` has at most one record per
pair, and a call for a pair already present returns the `Duplicate`
outcome without writing. -/
theorem C1_app_level_uniqueness :
    (∀ att : List AttRow, AttReach att → ∀ sn pid : Str, pair_count sn pid att ≤ 1)
    ∧ (∀ (sn pid tok : Str) (ts now : Int) (att : List AttRow),
        att_lookup sn pid att ≠ none →
        record_attendance sn pid tok ts now att
          = ((false, "This registration number has already submitted."), att)) :=
  ⟨fun _ h sn pid => attReach_pair_count_le_one h sn pid,
   fun _ _ tok ts now _ h => record_attendance_dup h tok ts now⟩

/-- C1 witness: the amended claim evaluated at a concrete table. -/
theorem C1_app_level_uniqueness_witness :
    pair_count ['S'] ['A'] [] ≤ 1
    ∧ record_attendance ['S'] ['A'] ['t'] 0 0 [⟨['S'], ['A'], ['u'], 1, 1⟩]
        = ((false, "This registration number has already submitted."),
            [⟨['S'], ['A'], ['u'], 1, 1⟩]) :=
  ⟨C1_app_level_uniqueness.1 [] AttReach.init ['S'] ['A'],
   C1_app_level_uniqueness.2 ['S'] ['A'] ['t'] 0 0 [⟨['S'], ['A'], ['u'], 1, 1⟩]
     (by decide)⟩

/-- C2: with `TOKEN_WINDOW = 30`, a token for an existing, not-ended
session validates when the clock reads exactly `token_ts`, and is
rejected as expired at `token_ts + 31` and at `token_ts - 31`: the
window is symmetric in the absolute difference. -/
theorem C2_symmetric_window (name : Str) (interval : Int) (db : List SessionRow)
    (row : SessionRow) (hname : '|' ∉ name)
    (hlook : sessions_lookup name db = some row) (hended : row.ended = 0) :
    token_valid (make_token name interval) (interval * QR_REFRESH) db
      = (true, some (interval * QR_REFRESH), none)
    ∧ token_valid (make_token name interval) (interval * QR_REFRESH + 31) db
      = (false, none, some "QR expired, please scan a fresh one.")
    ∧ token_valid (make_token name interval) (interval * QR_REFRESH - 31) db
      = (false, none, some "QR expired, please scan a fresh one.") := by
  refine ⟨?_, ?_, ?_⟩
  · rw [token_valid_make_token hname]
    rw [if_neg (by unfold pyabs TOKEN_WINDOW; split <;> omega), hlook]
    simp [hended]
  · rw [token_valid_make_token hname]
    rw [if_pos (by unfold pyabs TOKEN_WINDOW; split <;> omega)]
  · rw [token_valid_make_token hname]
    rw [if_pos (by unfold pyabs TOKEN_WINDOW; split <;> omega)]

/-- C2 witness: session `"S"` active, token interval 100. -/
theorem C2_symmetric_window_witness :
    ('|' ∉ (['S'] : Str))
    ∧ sessions_lookup ['S'] [⟨['S'], 7, 0⟩] = some ⟨['S'], 7, 0⟩
    ∧ token_valid (make_token ['S'] 100) (100 * QR_REFRESH) [⟨['S'], 7, 0⟩]
        = (true, some (100 * QR_REFRESH), none)
    ∧ token_valid (make_token ['S'] 100) (100 * QR_REFRESH + 31) [⟨['S'], 7, 0⟩]
        = (false, none, some "QR expired, please scan a fresh one.")
    ∧ token_valid (make_token ['S'] 100) (100 * QR_REFRESH - 31) [⟨['S'], 7, 0⟩]
        = (false, none, some "QR expired, please scan a fresh one.") := by
  have h := C2_symmetric_window ['S'] 100 [⟨['S'], 7, 0⟩] ⟨['S'], 7, 0⟩
    (by decide) (by decide) rfl
  exact ⟨by decide, by decide, h.1, h.2.1, h.2.2⟩

/-- C3 counterexample: the issued interval is not computed from a
caller-supplied rotation period — with the clock at 3 and a supposed
period of 2 the code issues `"S|3"` while the spec's formula gives
`"S|1"`. -/
theorem C3_counterexample :
    (0 : Int) < 2 ∧ current_token ['S'] 3 ≠ current_token_spec ['S'] 2 3 := by
  exact ⟨by decide, by decide⟩

/-- C3 (amended): the code has no rotation-period parameter; the issued
interval is `now // QR_REFRESH` with the module constant `QR_REFRESH = 1`,
so the token is `"<name>|<now>"`, and the spec's formula agrees with the
code exactly when the supplied period equals `QR_REFRESH`. -/
theorem C3_interval_fixed_period (name : Str) (now : Int) :
    current_token name now = name ++ '|' :: intToStr now
    ∧ current_token name now = current_token_spec name QR_REFRESH now := by
  unfold current_token current_token_spec make_token current_interval QR_REFRESH
  rw [Int.fdiv_one]
  exact ⟨rfl, rfl⟩

/-- C4: the validator's ended-check ignores the `started` field: a row
with `started = 0` (falsy) and `ended = 0` accepts an in-window token,
while `session_active` is false for the same name. -/
theorem C4_ended_check_independent (name : Str) (interval now : Int)
    (db : List SessionRow) (row : SessionRow) (hname : '|' ∉ name)
    (hlook : sessions_lookup name db = some row)
    (hstarted : row.started = 0) (hended : row.ended = 0)
    (hwin : pyabs (now - interval * QR_REFRESH) ≤ TOKEN_WINDOW) :
    token_valid (make_token name interval) now db
      = (true, some (interval * QR_REFRESH), none)
    ∧ session_active name db = false := by
  constructor
  · rw [token_valid_make_token hname]
    rw [if_neg (by omega), hlook]
    simp [hended]
  · unfold session_active
    rw [hlook]
    simp [hstarted]

/-- C4 witness: a never-started, not-ended row for `"S"`. -/
theorem C4_ended_check_independent_witness :
    sessions_lookup ['S'] [⟨['S'], 0, 0⟩] = some ⟨['S'], 0, 0⟩
    ∧ pyabs (100 - 100 * QR_REFRESH) ≤ TOKEN_WINDOW
    ∧ token_valid (make_token ['S'] 100) 100 [⟨['S'], 0, 0⟩]
        = (true, some (100 * QR_REFRESH), none)
    ∧ session_active ['S'] [⟨['S'], 0, 0⟩] = false := by
  have h := C4_ended_check_independent ['S'] 100 100 [⟨['S'], 0, 0⟩] ⟨['S'], 0, 0⟩
    (by decide) (by decide) rfl rfl (by decide)
  exact ⟨by decide, by decide, h.1, h.2⟩

/-- C5: the validator's checks short-circuit in the strict order
decode, expiry, session existence, session ended, each producing its own
tagged outcome; in particular an out-of-window token for a nonexistent
session is `Expired`, not `SessionNotFound`, because the expiry check
runs before the store lookup. -/
theorem C5_strict_order :
    (∀ (token : Str) (now : Int) (db : List SessionRow),
        (splitOn '|' token).length ≠ 2 →
        token_valid token now db = (false, none, some "Invalid token format."))
    ∧ (∀ (name : Str) (interval now : Int) (db : List SessionRow), '|' ∉ name →
        TOKEN_WINDOW < pyabs (now - interval * QR_REFRESH) →
        token_valid (make_token name interval) now db
          = (false, none, some "QR expired, please scan a fresh one."))
    ∧ (∀ (name : Str) (interval now : Int) (db : List SessionRow), '|' ∉ name →
        pyabs (now - interval * QR_REFRESH) ≤ TOKEN_WINDOW →
        sessions_lookup name db = none →
        token_valid (make_token name interval) now db
          = (false, none, some "Session not found."))
    ∧ (∀ (name : Str) (interval now : Int) (db : List SessionRow)
        (row : SessionRow), '|' ∉ name →
        pyabs (now - interval * QR_REFRESH) ≤ TOKEN_WINDOW →
        sessions_lookup name db = some row → row.ended ≠ 0 →
        token_valid (make_token name interval) now db
          = (false, none, some "Session has ended."))
    ∧ (∀ (name : Str) (interval now : Int) (db : List SessionRow)
        (row : SessionRow), '|' ∉ name →
        pyabs (now - interval * QR_REFRESH) ≤ TOKEN_WINDOW →
        sessions_lookup name db = some row → row.ended = 0 →
        token_valid (make_token name interval) now db
          = (true, some (interval * QR_REFRESH), none)) := by
  refine ⟨?_, ?_, ?_, ?_, ?_⟩
  · intro token now db hlen
    exact token_valid_format_err hlen now db
  · intro name interval now db hname hwin
    rw [token_valid_make_token hname, if_pos hwin]
  · intro name interval now db hname hwin hlook
    rw [token_valid_make_token hname, if_neg (by omega), hlook]
  · intro name interval now db row hname hwin hlook hend
    rw [token_valid_make_token hname, if_neg (by omega), hlook]
    simp [hend]
  · intro name interval now db row hname hwin hlook hend
    rw [token_valid_make_token hname, if_neg (by omega), hlook]
    simp [hend]

/-- C5 witness: one concrete instance of each of the five outcomes. -/
theorem C5_strict_order_witness :
    (splitOn '|' ['a']).length ≠ 2
    ∧ token_valid ['a'] 0 [] = (false, none, some "Invalid token format.")
    ∧ TOKEN_WINDOW < pyabs (31 - 0 * QR_REFRESH)
    ∧ token_valid (make_token ['S'] 0) 31 []
        = (false, none, some "QR expired, please scan a fresh one.")
    ∧ sessions_lookup ['S'] ([] : List SessionRow) = none
    ∧ token_valid (make_token ['S'] 0) 0 []
        = (false, none, some "Session not found.")
    ∧ sessions_lookup ['S'] [⟨['S'], 1, 5⟩] = some ⟨['S'], 1, 5⟩
    ∧ token_valid (make_token ['S'] 0) 0 [⟨['S'], 1, 5⟩]
        = (false, none, some "Session has ended.")
    ∧ token_valid (make_token ['S'] 0) 0 [⟨['S'], 1, 0⟩]
        = (true, some (0 * QR_REFRESH), none) :=
  ⟨by decide,
   C5_strict_order.1 ['a'] 0 [] (by decide),
   by decide,
   C5_strict_order.2.1 ['S'] 0 31 [] (by decide) (by decide),
   by decide,
   C5_strict_order.2.2.1 ['S'] 0 0 [] (by decide) (by decide) rfl,
   by decide,
   C5_strict_order.2.2.2.1 ['S'] 0 0 [⟨['S'], 1, 5⟩] ⟨['S'], 1, 5⟩
     (by decide) (by decide) rfl (by decide),
   C5_strict_order.2.2.2.2 ['S'] 0 0 [⟨['S'], 1, 0⟩] ⟨['S'], 1, 0⟩
     (by decide) (by decide) rfl rfl⟩

/-- C6: codec round-trip — decoding an encoded token recovers exactly the
original `(name, interval)` pair whenever the name is delimiter-free. -/
theorem C6_roundtrip (name : Str) (interval : Int) (h : '|' ∉ name) :
    decode (make_token name interval) = some (name, interval) :=
  decode_make_token h interval

/-- C6 witness: round-trip at a concrete pair with a negative interval. -/
theorem C6_roundtrip_witness :
    ('|' ∉ (['S', '1'] : Str))
    ∧ decode (make_token ['S', '1'] (-500)) = some (['S', '1'], -500) :=
  ⟨by decide, C6_roundtrip ['S', '1'] (-500) (by decide)⟩

/-- C7: `start_session` upserts — afterwards the row is exactly
`(name, now, 0)` and `session_active` is true (for the real clock, which
is never the falsy 0), so a previously-ended session is reactivated; and
a repeated start only resets the clock: starting twice is the same as
starting once with the later clock value. -/
theorem C7_restart (name : Str) (now now2 : Int) (db : List SessionRow)
    (h : now ≠ 0) :
    session_active name (start_session name now db) = true
    ∧ sessions_lookup name (start_session name now db) = some ⟨name, now, 0⟩
    ∧ start_session name now2 (start_session name now db) = start_session name now2 db :=
  ⟨session_active_start name now db h, sessions_lookup_start_self name now db,
    start_start name now now2 db⟩

/-- C7 witness: session `"S"` previously ended (`ended = 7`), restarted at
time 5: `session_active` flips from false back to true. -/
theorem C7_restart_witness :
    (5 : Int) ≠ 0
    ∧ session_active ['S'] [⟨['S'], 1, 7⟩] = false
    ∧ session_active ['S'] (start_session ['S'] 5 [⟨['S'], 1, 7⟩]) = true
    ∧ sessions_lookup ['S'] (start_session ['S'] 5 [⟨['S'], 1, 7⟩]) = some ⟨['S'], 5, 0⟩
    ∧ start_session ['S'] 9 (start_session ['S'] 5 [⟨['S'], 1, 7⟩])
        = start_session ['S'] 9 [⟨['S'], 1, 7⟩] := by
  have h := C7_restart ['S'] 5 9 [⟨['S'], 1, 7⟩] (by decide)
  exact ⟨by decide, by decide, h.1, h.2.1, h.2.2⟩

/-- C8: submitting the same `(session, participant)` twice: the first
call succeeds, the second fails with the duplicate message and writes
nothing, and the session listing afterwards has exactly one entry for
that participant. -/
theorem C8_double_submit (sn pid tok tok2 : Str) (ts ts2 t1 t2 : Int)
    (att : List AttRow) (hfresh : att_lookup sn pid att = none) :
    (record_attendance sn pid tok ts t1 att).1 = (true, "Attendance marked.")
    ∧ (record_attendance sn pid tok2 ts2 t2
        (record_attendance sn pid tok ts t1 att).2).1
        = (false, "This registration number has already submitted.")
    ∧ (record_attendance sn pid tok2 ts2 t2
        (record_attendance sn pid tok ts t1 att).2).2
        = (record_attendance sn pid tok ts t1 att).2
    ∧ (fetch_attendance sn
        (record_attendance sn pid tok2 ts2 t2
          (record_attendance sn pid tok ts t1 att).2).2).countP
        (fun e => decide (e.1 = pid)) = 1 := by
  have h1 := record_attendance_fresh hfresh tok ts t1
  have hlook2 : att_lookup sn pid (record_attendance sn pid tok ts t1 att).2 ≠ none := by
    rw [h1]
    intro hc
    rw [att_lookup_eq_none_iff] at hc
    unfold pair_count at hc
    rw [List.countP_append] at hc
    simp [List.countP_cons] at hc
  have h2 := record_attendance_dup hlook2 tok2 ts2 t2
  refine ⟨by rw [h1], by rw [h2], by rw [h2], ?_⟩
  rw [h2, countP_fetch, h1]
  have hz := (att_lookup_eq_none_iff sn pid att).mp hfresh
  unfold pair_count at hz ⊢
  rw [List.countP_append, hz]
  simp [List.countP_cons]

/-- C8 witness: two submissions of `("S", "A")` on an empty table. -/
theorem C8_double_submit_witness :
    att_lookup ['S'] ['A'] [] = none
    ∧ (record_attendance ['S'] ['A'] ['t'] 3 4 []).1 = (true, "Attendance marked.")
    ∧ (record_attendance ['S'] ['A'] ['u'] 5 6
        (record_attendance ['S'] ['A'] ['t'] 3 4 []).2).1
        = (false, "This registration number has already submitted.")
    ∧ (record_attendance ['S'] ['A'] ['u'] 5 6
        (record_attendance ['S'] ['A'] ['t'] 3 4 []).2).2
        = (record_attendance ['S'] ['A'] ['t'] 3 4 []).2
    ∧ (fetch_attendance ['S']
        (record_attendance ['S'] ['A'] ['u'] 5 6
          (record_attendance ['S'] ['A'] ['t'] 3 4 []).2).2).countP
        (fun e => decide (e.1 = ['A'])) = 1 := by
  have h := C8_double_submit ['S'] ['A'] ['t'] ['u'] 3 5 4 6 [] (by decide)
  exact ⟨by decide, h.1, h.2.1, h.2.2.1, h.2.2.2⟩

/-- C9: `record_attendance` consults only the attendance table (the
sessions table is not even an input): any pair not already present is
recorded with a success outcome whatever the session state, and the only
failing outcome the function can produce carries the duplicate message. -/
theorem C9_no_session_check (sn pid tok : Str) (ts t : Int) (att : List AttRow)
    (hfresh : att_lookup sn pid att = none) :
    record_attendance sn pid tok ts t att
      = ((true, "Attendance marked."), att ++ [⟨sn, pid, tok, ts, t⟩])
    ∧ ∀ (sn' pid' tok' : Str) (ts' t' : Int) (att' : List AttRow),
        (record_attendance sn' pid' tok' ts' t' att').1.1 = false →
        (record_attendance sn' pid' tok' ts' t' att').1.2
          = "This registration number has already submitted." := by
  refine ⟨record_attendance_fresh hfresh tok ts t, ?_⟩
  intro sn' pid' tok' ts' t' att' hfail
  cases hl : att_lookup sn' pid' att' with
  | none =>
    rw [record_attendance_fresh hl] at hfail
    simp at hfail
  | some r =>
    rw [record_attendance_dup (by simp [hl]) tok' ts' t']

/-- C9 witness: recording succeeds on an empty table, and the one failing
outcome carries the duplicate message. -/
theorem C9_no_session_check_witness :
    att_lookup ['S'] ['A'] [] = none
    ∧ record_attendance ['S'] ['A'] ['t'] 3 4 []
        = ((true, "Attendance marked."), [⟨['S'], ['A'], ['t'], 3, 4⟩])
    ∧ (record_attendance ['S'] ['A'] ['u'] 5 6
        [⟨['S'], ['A'], ['t'], 3, 4⟩]).1.2
        = "This registration number has already submitted." := by
  have h := C9_no_session_check ['S'] ['A'] ['t'] 3 4 [] (by decide)
  exact ⟨by decide, h.1,
    h.2 ['S'] ['A'] ['u'] 5 6 [⟨['S'], ['A'], ['t'], 3, 4⟩] (by decide)⟩

/-- C10: a session name containing the delimiter poisons its tokens: the
encoded token splits into more than two parts, so `token_valid` always
answers with the invalid-format outcome, whatever the clock or the
session store. -/
theorem C10_delimiter_injection (name : Str) (interval now : Int)
    (db : List SessionRow) (h : '|' ∈ name) :
    2 < (splitOn '|' (make_token name interval)).length
    ∧ token_valid (make_token name interval) now db
        = (false, none, some "Invalid token format.") := by
  have h1 : 0 < name.count '|' := by
    apply Nat.pos_of_ne_zero
    intro hz
    exact (List.count_eq_zero.mp hz) h
  have hcount : 2 ≤ (make_token name interval).count '|' := by
    unfold make_token
    rw [List.count_append, List.count_cons]
    simp
    omega
  have hlen : 2 < (splitOn '|' (make_token name interval)).length := by
    rw [splitOn_length]
    omega
  exact ⟨hlen, token_valid_format_err (by omega) now db⟩

/-- C10 witness: the session name `"a|b"`. -/
theorem C10_delimiter_injection_witness :
    ('|' ∈ (['a', '|', 'b'] : Str))
    ∧ 2 < (splitOn '|' (make_token ['a', '|', 'b'] 0)).length
    ∧ token_valid (make_token ['a', '|', 'b'] 0) 0 [⟨['a', '|', 'b'], 1, 0⟩]
        = (false, none, some "Invalid token format.") := by
  have h := C10_delimiter_injection ['a', '|', 'b'] 0 0 [⟨['a', '|', 'b'], 1, 0⟩]
    (by decide)
  exact ⟨by decide, h.1, h.2⟩


end SmartAttendance
